import Mathlib

/-!
Verification of the software rasterizer (pipeline.cpp and its wide-character
variant).  The C++ `float` arithmetic is embedded as exact rational
arithmetic (`ℚ`); all claims under study are algebraic statements about the
formulas, for which `ℚ` is the faithful idealisation.  C++ `std::size_t`
and `int` indices appearing only with non-negative values are embedded as
`ℕ` / `ℤ` as appropriate.
-/

/-- 3D point in object/world space (source `struct vec3`). -/
structure vec3 where
  x : ℚ
  y : ℚ
  z : ℚ
deriving DecidableEq, Repr

/-- Homogeneous 4D point (source `struct vec4`). -/
structure vec4 where
  x : ℚ
  y : ℚ
  z : ℚ
  w : ℚ
deriving DecidableEq, Repr

/-- Perspective divide (source `vec4::normalize`): divides `x`, `y`, `z`
and finally `w` by the original `w`; the in-place C++ code divides `w`
last, so every component is divided by the original `w`. -/
def vec4.normalize (v : vec4) : vec4 :=
  ⟨v.x / v.w, v.y / v.w, v.z / v.w, v.w / v.w⟩

/-- Row-major 4×4 matrix (source `typedef std::array<float, 4 * 4> mat4`);
field `mij` is the entry at row `i`, column `j`, i.e. source `m[i * 4 + j]`. -/
structure mat4 where
  m00 : ℚ
  m01 : ℚ
  m02 : ℚ
  m03 : ℚ
  m10 : ℚ
  m11 : ℚ
  m12 : ℚ
  m13 : ℚ
  m20 : ℚ
  m21 : ℚ
  m22 : ℚ
  m23 : ℚ
  m30 : ℚ
  m31 : ℚ
  m32 : ℚ
  m33 : ℚ
deriving DecidableEq, Repr

/-- Source `get_projection(l, r, t, b, n, f)`: the projection matrix the
code builds, entry for entry. -/
def get_projection (l r t b n f : ℚ) : mat4 :=
  { m00 := 2 * n / (r - l), m01 := 0,               m02 := (l + r) / (l - r), m03 := 0
  , m10 := 0,               m11 := 2 * n / (b - t), m12 := (t + b) / (t - b), m13 := 0
  , m20 := 0,               m21 := 0,               m22 := (f + n) / (f - n), m23 := 2 * n * f / (n - f)
  , m30 := 0,               m31 := 0,               m32 := 1,                 m33 := 0 }

/-- Modelled from the spec: the off-center frustum matrix printed in §4.2 of
the specification, whose row 1 (second row) reads
`[0, 2n/(b-t), (t+b)/(b-t), 0]`.  This definition follows the spec text and
is compared against the source's `get_projection`. -/
def spec_projection (l r t b n f : ℚ) : mat4 :=
  { m00 := 2 * n / (r - l), m01 := 0,               m02 := (l + r) / (l - r), m03 := 0
  , m10 := 0,               m11 := 2 * n / (b - t), m12 := (t + b) / (b - t), m13 := 0
  , m20 := 0,               m21 := 0,               m22 := (f + n) / (f - n), m23 := 2 * n * f / (n - f)
  , m30 := 0,               m31 := 0,               m32 := 1,                 m33 := 0 }

/-- Source `mat4_mul_vec4`: row-major matrix-vector product. -/
def mat4_mul_vec4 (m : mat4) (v : vec4) : vec4 :=
  ⟨ m.m00 * v.x + m.m01 * v.y + m.m02 * v.z + m.m03 * v.w
  , m.m10 * v.x + m.m11 * v.y + m.m12 * v.z + m.m13 * v.w
  , m.m20 * v.x + m.m21 * v.y + m.m22 * v.z + m.m23 * v.w
  , m.m30 * v.x + m.m31 * v.y + m.m32 * v.z + m.m33 * v.w ⟩

/-- Value of the edge function of the lambda inside `inside_triangle`:
`(x - a.x) * (b.y - a.y) - (y - a.y) * (b.x - a.x)`. -/
def edgeVal (a b : vec4) (x y : ℚ) : ℚ :=
  (x - a.x) * (b.y - a.y) - (y - a.y) * (b.x - a.x)

/-- The edge test of the lambda inside `inside_triangle`: the edge value
compared `>= 0`. -/
def edge (a b : vec4) (x y : ℚ) : Bool :=
  decide (edgeVal a b x y ≥ 0)

/-- Source `inside_triangle(a, b, c, x, y)`: conjunction of the three edge
tests `edge(b, a)`, `edge(c, b)`, `edge(a, c)`. -/
def inside_triangle (a b c : vec4) (x y : ℚ) : Bool :=
  edge b a x y && edge c b x y && edge a c x y

/-- The `z_p` intermediate of source `get_z_component`: the z-component of
the cross product of the two edge vectors, i.e. twice the signed area of
the projected (2D) triangle. -/
def z_p (a b c : vec4) : ℚ :=
  (b.x - a.x) * (c.y - a.y) - (c.x - a.x) * (b.y - a.y)

/-- Source `get_z_component(a, b, c, x, y)`: solves the plane equation of
the triangle for z at (x, y). -/
def get_z_component (a b c : vec4) (x y : ℚ) : ℚ :=
  let x_p := (b.y - a.y) * (c.z - a.z) - (c.y - a.y) * (b.z - a.z)
  let y_p := (b.z - a.z) * (c.x - a.x) - (c.z - a.z) * (b.x - a.x)
  let w_p := -(x_p * a.x + y_p * a.y + z_p a b c * a.z)
  (-x_p * x - y_p * y - w_p) / z_p a b c

/-- Source `to_cartesian(coord, factor)`: maps a grid index to NDC via
`coord * 2 / (factor - 1) - 1`. -/
def to_cartesian (coord factor : ℤ) : ℚ :=
  ((coord : ℚ) * 2) / ((factor : ℚ) - 1) - 1

/-- Source `bounding_box(a, b, c, w, h)` (wide-character variant): packs
`(x_min, x_max, y_min, y_max)` into a `vec4`.  The lower bounds take the
minimum of the vertex coordinates together with `0.0`, the upper bounds
the maximum together with `1.0`, then map NDC to pixels via
`(coord + 1) * (extent - 1) / 2`. -/
def bounding_box (a b c : vec4) (w h : ℤ) : vec4 :=
  ⟨ (min (min (min a.x b.x) c.x) 0 + 1) * ((w : ℚ) - 1) / 2
  , (max (max (max a.x b.x) c.x) 1 + 1) * ((w : ℚ) - 1) / 2
  , (min (min (min a.y b.y) c.y) 0 + 1) * ((h : ℚ) - 1) / 2
  , (max (max (max a.y b.y) c.y) 1 + 1) * ((h : ℚ) - 1) / 2 ⟩

/-- The frame buffer (source `struct screen`): a `w × h` grid of cells with
parallel depth storage, both addressed by the flattened index `y * w + x`.
The fixed-extent arrays are embedded as total functions on indices. -/
structure screen where
  w : ℕ
  h : ℕ
  buf : ℕ → Char
  depth : ℕ → ℚ

/-- The source constructor: `buf.fill('.')`, `depth.fill(0)`. -/
def screen.init (w h : ℕ) : screen :=
  ⟨w, h, fun _ => '.', fun _ => 0⟩

/-- Source `screen::at(x, y)`: plain accessor, reads `buf[y * w + x]`. -/
def screen.at (s : screen) (x y : ℕ) : Char :=
  s.buf (y * s.w + x)

/-- The assertion condition guarding every `screen::at` overload:
`assert(y * w + x < w * h)`.  `true` means the assertion passes. -/
def screen.at_assert (s : screen) (x y : ℕ) : Bool :=
  decide (y * s.w + x < s.w * s.h)

/-- Source `screen::at(x, y, d)`, the depth-tested write
(`write_if_nearer` in the spec).  If `depth[y*w+x] + 1 < d` it returns an
empty handle and leaves the state unchanged; otherwise it stores `d` into
the depth buffer and returns a handle (the flattened index) to the cell.
The cell content `buf` is only written later by the caller through the
handle, so `atDepth` itself never touches `buf`. -/
def screen.atDepth (s : screen) (x y : ℕ) (d : ℚ) : Option ℕ × screen :=
  if s.depth (y * s.w + x) + 1 < d then
    (none, s)
  else
    (some (y * s.w + x),
      { s with depth := fun i => if i = y * s.w + x then d else s.depth i })

/-- Runs a sequence of depth-tested writes `(x, y, d)` left to right. -/
def screen.runWrites (s : screen) : List (ℕ × ℕ × ℚ) → screen
  | [] => s
  | (x, y, d) :: ops => screen.runWrites (s.atDepth x y d).2 ops

theorem bounding_box_x (a b c : vec4) (w h : ℤ) :
    (bounding_box a b c w h).x =
      (min (min (min a.x b.x) c.x) 0 + 1) * ((w : ℚ) - 1) / 2 := rfl

theorem bounding_box_y (a b c : vec4) (w h : ℤ) :
    (bounding_box a b c w h).y =
      (max (max (max a.x b.x) c.x) 1 + 1) * ((w : ℚ) - 1) / 2 := rfl

theorem bounding_box_z (a b c : vec4) (w h : ℤ) :
    (bounding_box a b c w h).z =
      (min (min (min a.y b.y) c.y) 0 + 1) * ((h : ℚ) - 1) / 2 := rfl

theorem bounding_box_w (a b c : vec4) (w h : ℤ) :
    (bounding_box a b c w h).w =
      (max (max (max a.y b.y) c.y) 1 + 1) * ((h : ℚ) - 1) / 2 := rfl

/-- Helper: cyclic rotation of a three-fold Boolean conjunction. -/
theorem bool_and_rot (p q r : Bool) : ((p && q) && r) = ((q && r) && p) := by
  cases p <;> cases q <;> cases r <;> rfl

/-- C6: `inside_triangle a b c x y` returns `true` if and only if the edge
value `(x - p.x) * (q.y - p.y) - (y - p.y) * (q.x - p.x)` is non-negative
for each of the three directed edges `b→a`, `c→b`, `a→c`; in particular a
point at which some edge value is exactly zero still counts as inside. -/
theorem c6_inside_triangle_iff (a b c : vec4) (x y : ℚ) :
    inside_triangle a b c x y = true ↔
      (edgeVal b a x y ≥ 0 ∧ edgeVal c b x y ≥ 0 ∧ edgeVal a c x y ≥ 0) := by
  simp [inside_triangle, edge, Bool.and_eq_true, and_assoc]

/-- C10: `inside_triangle` is invariant under cyclic permutation of its
three vertices. -/
theorem c10_inside_triangle_cyclic (a b c : vec4) (x y : ℚ) :
    inside_triangle a b c x y = inside_triangle b c a x y :=
  bool_and_rot (edge b a x y) (edge c b x y) (edge a c x y)

/-- C8: multiplying `get_projection (-1) 1 (-1) 1 1 2` by the homogeneous
point `(0, 0, 1, 1)` on the optical axis at the near-plane distance and
applying the perspective divide yields a point with `x = 0` and `y = 0`. -/
theorem c8_optical_axis_round_trip :
    (vec4.normalize (mat4_mul_vec4 (get_projection (-1) 1 (-1) 1 1 2) ⟨0, 0, 1, 1⟩)).x = 0 ∧
    (vec4.normalize (mat4_mul_vec4 (get_projection (-1) 1 (-1) 1 1 2) ⟨0, 0, 1, 1⟩)).y = 0 := by
  constructor <;> norm_num [vec4.normalize, mat4_mul_vec4, get_projection]

/-- C1: for an in-range cell, the depth-tested write `screen.atDepth`
succeeds — returns a handle to the cell and stores `d` as the new depth —
exactly when `d ≤ stored + 1`; it never touches the cell contents itself,
and when `stored + 1 < d` it returns an empty handle and leaves the whole
screen unchanged. -/
theorem c1_depth_test (s : screen) (x y : ℕ) (d : ℚ)
    (_hx : x < s.w) (_hy : y < s.h) :
    (((s.atDepth x y d).1 = some (y * s.w + x) ∧
        (s.atDepth x y d).2.depth (y * s.w + x) = d) ↔
      d ≤ s.depth (y * s.w + x) + 1) ∧
    (s.atDepth x y d).2.buf = s.buf ∧
    (s.depth (y * s.w + x) + 1 < d →
      (s.atDepth x y d).1 = none ∧ (s.atDepth x y d).2 = s) := by
  unfold screen.atDepth
  by_cases hlt : s.depth (y * s.w + x) + 1 < d
  · rw [if_pos hlt]
    refine ⟨?_, rfl, fun _ => ⟨rfl, rfl⟩⟩
    constructor
    · rintro ⟨hsome, -⟩
      exact absurd hsome (by simp)
    · intro hle
      exact absurd hlt (not_lt.mpr hle)
  · rw [if_neg hlt]
    push_neg at hlt
    refine ⟨?_, rfl, fun hcon => absurd hcon (not_lt.mpr hlt)⟩
    constructor
    · intro _
      exact hlt
    · intro _
      exact ⟨rfl, by simp⟩

/-- C1 witness: on a fresh 2×2 screen the write at cell (1,1) with depth
1/2 succeeds, stores the depth and leaves the contents alone. -/
theorem c1_depth_test_witness :
    ((((screen.init 2 2).atDepth 1 1 (1/2)).1 =
        some (1 * (screen.init 2 2).w + 1) ∧
      ((screen.init 2 2).atDepth 1 1 (1/2)).2.depth
          (1 * (screen.init 2 2).w + 1) = 1/2) ↔
      (1/2 : ℚ) ≤ (screen.init 2 2).depth (1 * (screen.init 2 2).w + 1) + 1) ∧
    ((screen.init 2 2).atDepth 1 1 (1/2)).2.buf = (screen.init 2 2).buf ∧
    ((screen.init 2 2).depth (1 * (screen.init 2 2).w + 1) + 1 < 1/2 →
      ((screen.init 2 2).atDepth 1 1 (1/2)).1 = none ∧
      ((screen.init 2 2).atDepth 1 1 (1/2)).2 = screen.init 2 2) :=
  c1_depth_test (screen.init 2 2) 1 1 (1/2)
    (by norm_num [screen.init]) (by norm_num [screen.init])

/-- Helper: the depth-tested write preserves the screen extent. -/
theorem atDepth_w (s : screen) (x y : ℕ) (d : ℚ) :
    (s.atDepth x y d).2.w = s.w := by
  unfold screen.atDepth
  split <;> rfl

/-- Helper: the depth value of a cell after a sequence of depth-tested
writes is either its value in the starting state or the depth carried by
one of the writes in the sequence that targets that cell. -/
theorem runWrites_depth (ops : List (ℕ × ℕ × ℚ)) (s : screen) (i : ℕ) :
    (s.runWrites ops).depth i = s.depth i ∨
    ∃ e ∈ ops, i = e.2.1 * s.w + e.1 ∧ (s.runWrites ops).depth i = e.2.2 := by
  induction ops generalizing s with
  | nil => exact Or.inl rfl
  | cons e t ih =>
    obtain ⟨x, y, d⟩ := e
    have hrun : s.runWrites ((x, y, d) :: t) = (s.atDepth x y d).2.runWrites t := rfl
    rcases ih (s.atDepth x y d).2 with h | ⟨e1, he1, hidx, hval⟩
    · rw [hrun, h]
      unfold screen.atDepth
      by_cases hlt : s.depth (y * s.w + x) + 1 < d
      · rw [if_pos hlt]
        exact Or.inl rfl
      · rw [if_neg hlt]
        by_cases hi : i = y * s.w + x
        · refine Or.inr ⟨(x, y, d), List.mem_cons_self _ _, hi, ?_⟩
          simp [hi]
        · simp only [hi, if_neg hi]
          exact Or.inl rfl
    · refine Or.inr ⟨e1, List.mem_cons_of_mem _ he1, ?_, by rw [hrun]; exact hval⟩
      rwa [atDepth_w] at hidx

/-- C2 (amended): starting from a freshly constructed buffer, the depth
stored at any cell after any sequence of depth-tested writes is either the
initial value 0 or the depth of one of the writes targeting that cell
(every update happens through the one successful branch of `atDepth`);
and a write whose depth `d` exceeds the stored depth by more than 1
(`d > stored + 1`) fails and does not replace the stored value. -/
theorem c2_depth_invariant :
    (∀ (w h : ℕ) (ops : List (ℕ × ℕ × ℚ)) (i : ℕ),
      ((screen.init w h).runWrites ops).depth i = 0 ∨
      ∃ e ∈ ops, i = e.2.1 * w + e.1 ∧
        ((screen.init w h).runWrites ops).depth i = e.2.2) ∧
    (∀ (s : screen) (x y : ℕ) (d : ℚ), s.depth (y * s.w + x) + 1 < d →
      (s.atDepth x y d).1 = none ∧
      (s.atDepth x y d).2.depth (y * s.w + x) = s.depth (y * s.w + x)) := by
  constructor
  · intro w h ops i
    exact runWrites_depth ops (screen.init w h) i
  · intro s x y d hlt
    unfold screen.atDepth
    rw [if_pos hlt]
    exact ⟨rfl, rfl⟩

/-- C2 witness: on a fresh 1×1 screen, a write with depth 3 (which exceeds
the stored depth 0 by more than 1) fails and the stored depth stays 0. -/
theorem c2_depth_invariant_witness :
    ((screen.init 1 1).atDepth 0 0 3).1 = none ∧
    ((screen.init 1 1).atDepth 0 0 3).2.depth (0 * (screen.init 1 1).w + 0) =
      (screen.init 1 1).depth (0 * (screen.init 1 1).w + 0) :=
  c2_depth_invariant.2 (screen.init 1 1) 0 0 3 (by norm_num [screen.init])

/-- C2 counterexample: the claim that a write with depth greater than the
stored value never overwrites is false — on a fresh buffer (stored depth
0), a write with depth 1 > 0 succeeds and replaces the stored 0 by 1. -/
theorem c2_counterexample :
    (1 : ℚ) > (screen.init 1 1).depth 0 ∧
    ((screen.init 1 1).atDepth 0 0 1).2.depth 0 = 1 := by
  constructor
  · norm_num [screen.init]
  · norm_num [screen.init, screen.atDepth]

/-- C3 counterexample: at the frustum l=-1, r=1, t=0, b=1, n=1, f=2 the
code's matrix differs from the spec's matrix: the entry at row 1, column 2
is `(t+b)/(t-b) = -1` in the code but the spec's `(t+b)/(b-t) = 1`. -/
theorem c3_projection_counterexample :
    get_projection (-1) 1 0 1 1 2 ≠ spec_projection (-1) 1 0 1 1 2 ∧
    (get_projection (-1) 1 0 1 1 2).m12 = -1 ∧
    (spec_projection (-1) 1 0 1 1 2).m12 = 1 := by
  have hg : (get_projection (-1) 1 0 1 1 2).m12 = -1 := by
    norm_num [get_projection]
  have hs : (spec_projection (-1) 1 0 1 1 2).m12 = 1 := by
    norm_num [spec_projection]
  refine ⟨?_, hg, hs⟩
  intro h
  rw [h, hs] at hg
  norm_num at hg

/-- C3 (amended): for every frustum with r ≠ l, b ≠ t and f ≠ n,
`get_projection` returns the spec's matrix except that the entry at row 1,
column 2 is `(t+b)/(t-b)`, the negation of the spec's `(t+b)/(b-t)`; all
fifteen other entries agree. -/
theorem c3_projection_amended (l r t b n f : ℚ)
    (_hrl : r ≠ l) (_hbt : b ≠ t) (_hfn : f ≠ n) :
    get_projection l r t b n f =
      { spec_projection l r t b n f with
          m12 := -(spec_projection l r t b n f).m12 } := by
  have key : (t + b) / (t - b) = -((t + b) / (b - t)) := by
    rw [show t - b = -(b - t) by ring, div_neg]
  simp [get_projection, spec_projection, key]

/-- C3 witness: the amended statement evaluated at the concrete frustum
l=-1, r=1, t=0, b=1, n=1, f=2. -/
theorem c3_projection_amended_witness :
    get_projection (-1) 1 0 1 1 2 =
      { spec_projection (-1) 1 0 1 1 2 with
          m12 := -(spec_projection (-1) 1 0 1 1 2).m12 } :=
  c3_projection_amended (-1) 1 0 1 1 2
    (by norm_num) (by norm_num) (by norm_num)

/-- C7 counterexample: a zero-area triangle whose three vertices coincide
is "inside" at every sample point — here at the grid sample
(`to_cartesian 75 150`, `to_cartesian 25 50`) — so a degenerate triangle
does not in general produce an empty interior. -/
theorem c7_counterexample :
    z_p ⟨0, 0, 3/2, 1⟩ ⟨0, 0, 3/2, 1⟩ ⟨0, 0, 3/2, 1⟩ = 0 ∧
    inside_triangle ⟨0, 0, 3/2, 1⟩ ⟨0, 0, 3/2, 1⟩ ⟨0, 0, 3/2, 1⟩
      (to_cartesian 75 150) (to_cartesian 25 50) = true := by
  constructor
  · norm_num [z_p]
  · simp only [inside_triangle, edge, edgeVal, to_cartesian, Bool.and_eq_true,
      decide_eq_true_eq]
    norm_num

/-- C7 (amended): for a degenerate triangle (zero projected area,
`z_p a b c = 0`), any sample point that `inside_triangle` admits makes all
three edge functions exactly zero — the admitted set is confined to the
degenerate triangle's carrying line when two vertices differ, though a
triangle whose vertices all coincide admits every point, so degenerate
triangles may still reach the depth computation and the buffer write. -/
theorem c7_degenerate_edges_zero (a b c : vec4) (x y : ℚ)
    (hdeg : z_p a b c = 0) (hin : inside_triangle a b c x y = true) :
    edgeVal b a x y = 0 ∧ edgeVal c b x y = 0 ∧ edgeVal a c x y = 0 := by
  have hsum : edgeVal b a x y + edgeVal c b x y + edgeVal a c x y = z_p a b c := by
    unfold edgeVal z_p
    ring
  rw [hdeg] at hsum
  have h : edgeVal b a x y ≥ 0 ∧ edgeVal c b x y ≥ 0 ∧ edgeVal a c x y ≥ 0 := by
    simpa [inside_triangle, edge, Bool.and_eq_true, and_assoc] using hin
  obtain ⟨h1, h2, h3⟩ := h
  exact ⟨by linarith, by linarith, by linarith⟩

/-- C7 witness: the collinear triangle (0,0), (1,0), (2,0) admits the
point (1/2, 0) and all three edge values vanish there. -/
theorem c7_degenerate_edges_zero_witness :
    edgeVal ⟨1, 0, 0, 1⟩ ⟨0, 0, 0, 1⟩ (1/2) 0 = 0 ∧
    edgeVal ⟨2, 0, 0, 1⟩ ⟨1, 0, 0, 1⟩ (1/2) 0 = 0 ∧
    edgeVal ⟨0, 0, 0, 1⟩ ⟨2, 0, 0, 1⟩ (1/2) 0 = 0 :=
  c7_degenerate_edges_zero ⟨0, 0, 0, 1⟩ ⟨1, 0, 0, 1⟩ ⟨2, 0, 0, 1⟩ (1/2) 0
    (by norm_num [z_p])
    (by simp only [inside_triangle, edge, edgeVal, Bool.and_eq_true,
          decide_eq_true_eq]
        norm_num)

/-- C9: on a 10×10 screen the access `at(15, 0)` has x = 15 ≥ width = 10,
yet the assertion condition `y*w + x < w*h` evaluates to `0*10+15 = 15 <
100` and passes, and the accessor goes on to read buffer element 15 — the
same element the in-range access `at(5, 1)` reads — instead of failing
fast. -/
theorem c9_assert_gap :
    (screen.init 10 10).w ≤ 15 ∧
    (screen.init 10 10).at_assert 15 0 = true ∧
    (screen.init 10 10).at 15 0 = (screen.init 10 10).at 5 1 := by
  refine ⟨by decide, by decide, rfl⟩

/-- C4 counterexample: for a triangle with a vertex at NDC x = -3 (outside
[-1,1]) and a 150×50 screen, the returned x lower bound is
(-3+1)*(150-1)/2 = -149, which is negative — the box is not clamped to
[0,width]×[0,height]. -/
theorem c4_counterexample :
    (bounding_box ⟨-3, 0, 0, 1⟩ ⟨0, 0, 0, 1⟩ ⟨0, 0, 0, 1⟩ 150 50).x = -149 ∧
    (bounding_box ⟨-3, 0, 0, 1⟩ ⟨0, 0, 0, 1⟩ ⟨0, 0, 0, 1⟩ 150 50).x < 0 := by
  have hx : (bounding_box ⟨-3, 0, 0, 1⟩ ⟨0, 0, 0, 1⟩ ⟨0, 0, 0, 1⟩ 150 50).x = -149 := by
    rw [bounding_box_x]
    norm_num [min_def]
  exact ⟨hx, by rw [hx]; norm_num⟩

/-- C4 (amended): `bounding_box` performs no clamping — its lower bounds
are the minimum of the vertex coordinates and NDC 0, its upper bounds the
maximum of the vertex coordinates and NDC 1, mapped to pixels by
`(coord+1)*(extent-1)/2` — so the returned bounds stay within
[0,width]×[0,height] only under the assumption that every vertex NDC
coordinate lies in [-1,1]; a coordinate outside [-1,1] can produce a bound
outside the screen extent. -/
theorem c4_bounds_in_screen (a b c : vec4) (W H : ℤ)
    (hW : 1 ≤ W) (hH : 1 ≤ H)
    (ha1 : -1 ≤ a.x) (ha2 : a.x ≤ 1) (hb1 : -1 ≤ b.x) (hb2 : b.x ≤ 1)
    (hc1 : -1 ≤ c.x) (hc2 : c.x ≤ 1)
    (ha3 : -1 ≤ a.y) (ha4 : a.y ≤ 1) (hb3 : -1 ≤ b.y) (hb4 : b.y ≤ 1)
    (hc3 : -1 ≤ c.y) (hc4 : c.y ≤ 1) :
    0 ≤ (bounding_box a b c W H).x ∧ (bounding_box a b c W H).x ≤ (W : ℚ) ∧
    0 ≤ (bounding_box a b c W H).y ∧ (bounding_box a b c W H).y ≤ (W : ℚ) ∧
    0 ≤ (bounding_box a b c W H).z ∧ (bounding_box a b c W H).z ≤ (H : ℚ) ∧
    0 ≤ (bounding_box a b c W H).w ∧ (bounding_box a b c W H).w ≤ (H : ℚ) := by
  have hWq : (1 : ℚ) ≤ (W : ℚ) := by exact_mod_cast hW
  have hHq : (1 : ℚ) ≤ (H : ℚ) := by exact_mod_cast hH
  have hmx1 : (-1 : ℚ) ≤ min (min (min a.x b.x) c.x) 0 :=
    le_min (le_min (le_min ha1 hb1) hc1) (by norm_num)
  have hmx0 : min (min (min a.x b.x) c.x) 0 ≤ 0 := min_le_right _ _
  have hMxeq : max (max (max a.x b.x) c.x) 1 = 1 :=
    le_antisymm (max_le (max_le (max_le ha2 hb2) hc2) le_rfl) (le_max_right _ _)
  have hmy1 : (-1 : ℚ) ≤ min (min (min a.y b.y) c.y) 0 :=
    le_min (le_min (le_min ha3 hb3) hc3) (by norm_num)
  have hmy0 : min (min (min a.y b.y) c.y) 0 ≤ 0 := min_le_right _ _
  have hMyeq : max (max (max a.y b.y) c.y) 1 = 1 :=
    le_antisymm (max_le (max_le (max_le ha4 hb4) hc4) le_rfl) (le_max_right _ _)
  refine ⟨?_, ?_, ?_, ?_, ?_, ?_, ?_, ?_⟩
  · rw [bounding_box_x]
    exact div_nonneg (mul_nonneg (by linarith) (by linarith)) (by norm_num)
  · rw [bounding_box_x]
    have h1 : (min (min (min a.x b.x) c.x) 0 + 1) * ((W : ℚ) - 1) ≤
        1 * ((W : ℚ) - 1) :=
      mul_le_mul_of_nonneg_right (by linarith) (by linarith)
    linarith
  · rw [bounding_box_y, hMxeq]
    linarith
  · rw [bounding_box_y, hMxeq]
    linarith
  · rw [bounding_box_z]
    exact div_nonneg (mul_nonneg (by linarith) (by linarith)) (by norm_num)
  · rw [bounding_box_z]
    have h1 : (min (min (min a.y b.y) c.y) 0 + 1) * ((H : ℚ) - 1) ≤
        1 * ((H : ℚ) - 1) :=
      mul_le_mul_of_nonneg_right (by linarith) (by linarith)
    linarith
  · rw [bounding_box_w, hMyeq]
    linarith
  · rw [bounding_box_w, hMyeq]
    linarith

/-- C4 witness: the amended bound statement evaluated for the triangle
with all vertices at the NDC origin on a 150×50 screen. -/
theorem c4_bounds_in_screen_witness :
    0 ≤ (bounding_box ⟨0, 0, 0, 1⟩ ⟨0, 0, 0, 1⟩ ⟨0, 0, 0, 1⟩ 150 50).x ∧
    (bounding_box ⟨0, 0, 0, 1⟩ ⟨0, 0, 0, 1⟩ ⟨0, 0, 0, 1⟩ 150 50).x ≤ (150 : ℚ) ∧
    0 ≤ (bounding_box ⟨0, 0, 0, 1⟩ ⟨0, 0, 0, 1⟩ ⟨0, 0, 0, 1⟩ 150 50).y ∧
    (bounding_box ⟨0, 0, 0, 1⟩ ⟨0, 0, 0, 1⟩ ⟨0, 0, 0, 1⟩ 150 50).y ≤ (150 : ℚ) ∧
    0 ≤ (bounding_box ⟨0, 0, 0, 1⟩ ⟨0, 0, 0, 1⟩ ⟨0, 0, 0, 1⟩ 150 50).z ∧
    (bounding_box ⟨0, 0, 0, 1⟩ ⟨0, 0, 0, 1⟩ ⟨0, 0, 0, 1⟩ 150 50).z ≤ (50 : ℚ) ∧
    0 ≤ (bounding_box ⟨0, 0, 0, 1⟩ ⟨0, 0, 0, 1⟩ ⟨0, 0, 0, 1⟩ 150 50).w ∧
    (bounding_box ⟨0, 0, 0, 1⟩ ⟨0, 0, 0, 1⟩ ⟨0, 0, 0, 1⟩ 150 50).w ≤ (50 : ℚ) := by
  have h := c4_bounds_in_screen ⟨0, 0, 0, 1⟩ ⟨0, 0, 0, 1⟩ ⟨0, 0, 0, 1⟩ 150 50
    (by norm_num) (by norm_num) (by norm_num) (by norm_num) (by norm_num)
    (by norm_num) (by norm_num) (by norm_num) (by norm_num) (by norm_num)
    (by norm_num) (by norm_num) (by norm_num) (by norm_num)
  exact_mod_cast h

/-- C5 counterexample: for the triangle with NDC vertices (1/2, -1/2),
(1/2, 1/2), (-1/2, 1/2) — all strictly inside (-1,1)×(-1,1) — on a 150×50
screen, the upper x bound equals 149 and the upper y bound equals 49, the
screen's maximum pixel coordinates, not strictly below them: the max with
NDC 1.0 in `bounding_box` forces the upper bounds to the full extent. -/
theorem c5_counterexample :
    ((-1 : ℚ) < 1/2 ∧ (1/2 : ℚ) < 1 ∧ (-1 : ℚ) < -1/2 ∧ (-1/2 : ℚ) < 1) ∧
    (bounding_box ⟨1/2, -1/2, 0, 1⟩ ⟨1/2, 1/2, 0, 1⟩ ⟨-1/2, 1/2, 0, 1⟩ 150 50).y
      = 149 ∧
    ¬((bounding_box ⟨1/2, -1/2, 0, 1⟩ ⟨1/2, 1/2, 0, 1⟩ ⟨-1/2, 1/2, 0, 1⟩ 150 50).y
      < 149) ∧
    (bounding_box ⟨1/2, -1/2, 0, 1⟩ ⟨1/2, 1/2, 0, 1⟩ ⟨-1/2, 1/2, 0, 1⟩ 150 50).w
      = 49 := by
  have hy : (bounding_box ⟨1/2, -1/2, 0, 1⟩ ⟨1/2, 1/2, 0, 1⟩
      ⟨-1/2, 1/2, 0, 1⟩ 150 50).y = 149 := by
    rw [bounding_box_y]
    norm_num [max_def]
  have hw : (bounding_box ⟨1/2, -1/2, 0, 1⟩ ⟨1/2, 1/2, 0, 1⟩
      ⟨-1/2, 1/2, 0, 1⟩ 150 50).w = 49 := by
    rw [bounding_box_w]
    norm_num [max_def]
  exact ⟨by norm_num, hy, by rw [hy]; norm_num, hw⟩

/-- C5 (amended): for a triangle whose projected vertices lie strictly
inside (-1,1)×(-1,1) and a screen of extent at least 2×2, the box is a
strict subregion of [0,width]×[0,height]: its lower bounds are strictly
positive and strictly below its upper bounds — but the upper bounds are
not strictly below the maximum pixel coordinates; they equal width-1 and
height-1 exactly, because `bounding_box` always takes the max with NDC
1.0. -/
theorem c5_strict_inside (a b c : vec4) (W H : ℤ)
    (hW : 2 ≤ W) (hH : 2 ≤ H)
    (ha1 : -1 < a.x) (ha2 : a.x < 1) (hb1 : -1 < b.x) (hb2 : b.x < 1)
    (hc1 : -1 < c.x) (hc2 : c.x < 1)
    (ha3 : -1 < a.y) (ha4 : a.y < 1) (hb3 : -1 < b.y) (hb4 : b.y < 1)
    (hc3 : -1 < c.y) (hc4 : c.y < 1) :
    0 < (bounding_box a b c W H).x ∧
    (bounding_box a b c W H).y = (W : ℚ) - 1 ∧
    (bounding_box a b c W H).x < (bounding_box a b c W H).y ∧
    0 < (bounding_box a b c W H).z ∧
    (bounding_box a b c W H).w = (H : ℚ) - 1 ∧
    (bounding_box a b c W H).z < (bounding_box a b c W H).w := by
  have hWq : (2 : ℚ) ≤ (W : ℚ) := by exact_mod_cast hW
  have hHq : (2 : ℚ) ≤ (H : ℚ) := by exact_mod_cast hH
  have hmx1 : (-1 : ℚ) < min (min (min a.x b.x) c.x) 0 :=
    lt_min (lt_min (lt_min ha1 hb1) hc1) (by norm_num)
  have hmx0 : min (min (min a.x b.x) c.x) 0 ≤ 0 := min_le_right _ _
  have hMxeq : max (max (max a.x b.x) c.x) 1 = 1 :=
    le_antisymm
      (max_le (max_le (max_le (le_of_lt ha2) (le_of_lt hb2)) (le_of_lt hc2)) le_rfl)
      (le_max_right _ _)
  have hmy1 : (-1 : ℚ) < min (min (min a.y b.y) c.y) 0 :=
    lt_min (lt_min (lt_min ha3 hb3) hc3) (by norm_num)
  have hmy0 : min (min (min a.y b.y) c.y) 0 ≤ 0 := min_le_right _ _
  have hMyeq : max (max (max a.y b.y) c.y) 1 = 1 :=
    le_antisymm
      (max_le (max_le (max_le (le_of_lt ha4) (le_of_lt hb4)) (le_of_lt hc4)) le_rfl)
      (le_max_right _ _)
  have hyv : (bounding_box a b c W H).y = (W : ℚ) - 1 := by
    rw [bounding_box_y, hMxeq]
    ring
  have hwv : (bounding_box a b c W H).w = (H : ℚ) - 1 := by
    rw [bounding_box_w, hMyeq]
    ring
  refine ⟨?_, hyv, ?_, ?_, hwv, ?_⟩
  · rw [bounding_box_x]
    exact div_pos (mul_pos (by linarith) (by linarith)) (by norm_num)
  · rw [bounding_box_x, hyv]
    have h1 : (min (min (min a.x b.x) c.x) 0 + 1) * ((W : ℚ) - 1) ≤
        1 * ((W : ℚ) - 1) :=
      mul_le_mul_of_nonneg_right (by linarith) (by linarith)
    linarith
  · rw [bounding_box_z]
    exact div_pos (mul_pos (by linarith) (by linarith)) (by norm_num)
  · rw [bounding_box_z, hwv]
    have h1 : (min (min (min a.y b.y) c.y) 0 + 1) * ((H : ℚ) - 1) ≤
        1 * ((H : ℚ) - 1) :=
      mul_le_mul_of_nonneg_right (by linarith) (by linarith)
    linarith

/-- C5 witness: the amended statement evaluated for the strictly-inside
triangle (1/2, -1/2), (1/2, 1/2), (-1/2, 1/2) on a 150×50 screen. -/
theorem c5_strict_inside_witness :
    0 < (bounding_box ⟨1/2, -1/2, 0, 1⟩ ⟨1/2, 1/2, 0, 1⟩ ⟨-1/2, 1/2, 0, 1⟩ 150 50).x ∧
    (bounding_box ⟨1/2, -1/2, 0, 1⟩ ⟨1/2, 1/2, 0, 1⟩ ⟨-1/2, 1/2, 0, 1⟩ 150 50).y
      = (150 : ℚ) - 1 ∧
    (bounding_box ⟨1/2, -1/2, 0, 1⟩ ⟨1/2, 1/2, 0, 1⟩ ⟨-1/2, 1/2, 0, 1⟩ 150 50).x
      < (bounding_box ⟨1/2, -1/2, 0, 1⟩ ⟨1/2, 1/2, 0, 1⟩ ⟨-1/2, 1/2, 0, 1⟩ 150 50).y ∧
    0 < (bounding_box ⟨1/2, -1/2, 0, 1⟩ ⟨1/2, 1/2, 0, 1⟩ ⟨-1/2, 1/2, 0, 1⟩ 150 50).z ∧
    (bounding_box ⟨1/2, -1/2, 0, 1⟩ ⟨1/2, 1/2, 0, 1⟩ ⟨-1/2, 1/2, 0, 1⟩ 150 50).w
      = (50 : ℚ) - 1 ∧
    (bounding_box ⟨1/2, -1/2, 0, 1⟩ ⟨1/2, 1/2, 0, 1⟩ ⟨-1/2, 1/2, 0, 1⟩ 150 50).z
      < (bounding_box ⟨1/2, -1/2, 0, 1⟩ ⟨1/2, 1/2, 0, 1⟩ ⟨-1/2, 1/2, 0, 1⟩ 150 50).w := by
  have h := c5_strict_inside ⟨1/2, -1/2, 0, 1⟩ ⟨1/2, 1/2, 0, 1⟩ ⟨-1/2, 1/2, 0, 1⟩ 150 50
    (by norm_num) (by norm_num) (by norm_num) (by norm_num) (by norm_num)
    (by norm_num) (by norm_num) (by norm_num) (by norm_num) (by norm_num)
    (by norm_num) (by norm_num) (by norm_num) (by norm_num)
  exact_mod_cast h
